import Mathlib

/-!
Verification development for the face replay machinery of
scripts/pyannote-face.py.

The script's core is a pair of Python generators, getFaceGenerator and
getLandmarkGenerator, that replay a timestamped annotation file in lockstep
with a video frame stream, plus the demo overlay renderer.  Both generators
share one suspension structure; we embed it once, generically over the
record type and the per-record output transformation, and instantiate it
twice.  Times are modelled as rationals (Python floats are used as exact
decimal fractions in the file format); Python int() truncation and numpy
rounding are modelled explicitly.
-/

namespace PyannoteFace

/-- Python int() applied to a rational value: truncation toward zero. -/
def pyInt (q : ℚ) : ℤ := if 0 ≤ q then ⌊q⌋ else ⌈q⌉

/-- numpy np.round on a rational value: round half to even. -/
def npRound (q : ℚ) : ℤ :=
  if q - ⌊q⌋ = 1 / 2 then (if 2 ∣ ⌊q⌋ then ⌊q⌋ else ⌊q⌋ + 1) else round q

/-- One row of a face tracking file, as read by getFaceGenerator with
columns t, track, left, top, right, bottom, status (line 99 of the source).
Coordinates are the raw normalized values stored in the file. -/
structure FaceRecord where
  t : ℚ
  track : ℤ
  left : ℚ
  top : ℚ
  right : ℚ
  bottom : ℚ
  status : String
deriving DecidableEq, Repr

/-- A dlib rectangle value: drect models dlib.drectangle (double-valued
coordinates), irect models dlib.rectangle (integer coordinates).  The
source picks the constructor from the double flag (line 109). -/
inductive Rect where
  | drect (left top right bottom : ℚ) : Rect
  | irect (left top right bottom : ℤ) : Rect
deriving DecidableEq, Repr

/-- The per-row transformation of getFaceGenerator (lines 114-121):
left = int(left * frame_width), right = int(right * frame_width),
top = int(top * frame_height), bottom = int(bottom * frame_height),
face = rectangle(left, top, right, bottom); the yielded element is the
tuple (identifier, face, status).  Note the int() truncation happens for
both rectangle variants, before the rectangle is constructed. -/
def mkFace (double : Bool) (frame_width frame_height : ℕ) (r : FaceRecord) :
    ℤ × Rect × String :=
  let left := pyInt (r.left * (frame_width : ℚ))
  let right := pyInt (r.right * (frame_width : ℚ))
  let top := pyInt (r.top * (frame_height : ℚ))
  let bottom := pyInt (r.bottom * (frame_height : ℚ))
  (r.track,
    if double then Rect.drect (left : ℚ) (top : ℚ) (right : ℚ) (bottom : ℚ)
    else Rect.irect left top right bottom,
    r.status)

/-- Modelled from the spec: the sub-pixel rectangle the spec says the
double variant should produce, namely the floating-point products of the
normalized file coordinates with frame width (left/right) and frame height
(top/bottom), with no truncation.  Used only to compare the spec's claim
C7 with the code's mkFace. -/
def specSubpixelRect (frame_width frame_height : ℕ) (r : FaceRecord) : Rect :=
  Rect.drect (r.left * (frame_width : ℚ)) (r.top * (frame_height : ℚ))
    (r.right * (frame_width : ℚ)) (r.bottom * (frame_height : ℚ))

/-- The sort performed by getFaceGenerator (line 104):
tracking = tracking.sort_values('t'), an ascending sort on the time column.
Modelled by a stable insertion sort on the time key. -/
def sortFaceRows (rows : List FaceRecord) : List FaceRecord :=
  rows.insertionSort (fun a b => a.t ≤ b.t)

/-- One row of a landmark file, as read by getLandmarkGenerator:
row[0] is the time, row[1] the track identifier, row[2:] the flat list of
normalized coordinates. -/
structure ShapeRow where
  t : ℚ
  track : ℤ
  coords : List ℚ
deriving DecidableEq, Repr

/-- The helper pairwise (lines 152-155): s -> (s0,s1), (s2,s3), ...;
zip(a, a) on one shared iterator, which silently drops an unpaired final
element of an odd-length sequence. -/
def pairwise {α : Type} : List α → List (α × α)
  | a :: b :: rest => (a, b) :: pairwise rest
  | _ => []

/-- The quantity n_points = (d - 2) / 2 computed at line 166 of the source
(true division, because of the from future import division at line 65).
The source computes it and never uses it again. -/
def n_points (d : ℕ) : ℚ := ((d : ℚ) - 2) / 2

/-- The per-row transformation of getLandmarkGenerator (lines 176-181) on
its non-crashing rows: landmarks = np.float32(list(pairwise(row[2:]))),
then landmarks[:, 0] = np.round(landmarks[:, 0] * frame_width) and
landmarks[:, 1] = np.round(landmarks[:, 1] * frame_height); the yielded
element is the tuple (identifier, landmarks).  This total function is the
restriction used inside the generator embedding; it is faithful exactly for
rows with at least two coordinate fields - rows with fewer crash in the
source (see mkShapeChecked for the error path). -/
def mkShape (frame_width frame_height : ℕ) (r : ShapeRow) : ℤ × List (ℤ × ℤ) :=
  (r.track,
    (pairwise r.coords).map
      (fun p => (npRound (p.1 * (frame_width : ℚ)), npRound (p.2 * (frame_height : ℚ)))))

/-- The per-row transformation of getLandmarkGenerator including its error
path: when a row has fewer than two coordinate fields, pairwise(row[2:])
is empty, np.float32([]) is a one-dimensional empty array, and the slice
assignment landmarks[:, 0] at line 180 raises IndexError (modelled as
none); otherwise the points are denormalized and rounded as in mkShape. -/
def mkShapeChecked (frame_width frame_height : ℕ) (r : ShapeRow) :
    Option (ℤ × List (ℤ × ℤ)) :=
  match pairwise r.coords with
  | [] => none
  | ps => some (r.track,
      ps.map (fun p => (npRound (p.1 * (frame_width : ℚ)),
        npRound (p.2 * (frame_height : ℚ)))))

/-- Row loading of getLandmarkGenerator (line 162): the table is read and
iterated directly; unlike getFaceGenerator there is no sort_values call,
so rows are presented to the replay loop in file order. -/
def shapeParse (rows : List ShapeRow) : List ShapeRow := rows

namespace Replay

/-- State of a suspended replay generator between two send calls.
loading: suspended at a delivery yield (or just primed with the first
record pending); the pending record has been read but its group is not yet
scanned.  waiting: suspended inside the wait loop at the yield of line 137
or 198, with the closed group (currentT, buf) held back and the record
that closed it pending.  exhausted: suspended in the trailing
while True loop of line 148 or 209. -/
inductive GenState (α β : Type) where
  | loading (pending : α) (rest : List α)
  | waiting (currentT : ℚ) (buf : List β) (pending : α) (rest : List α)
  | exhausted

variable {α β : Type} (time : α → ℚ) (out : α → β)

/-- The record-consuming arm of the for loop (lines 114-127): starting from
a buffered group at time cT, append the transformed record while its time
equals cT; stop at the first record of a different time (returning it as
the new pending record) or at the end of the input. -/
def scanGroup (cT : ℚ) : List β → List α → List β × Option (α × List α)
  | buf, [] => (buf, none)
  | buf, r :: rs =>
      if time r = cT then scanGroup cT (buf ++ [out r]) rs else (buf, some (r, rs))

/-- One send(t) call on the suspended generator: the reply it yields and
the state in which it suspends again.  Desugars the generator body of
getFaceGenerator lines 111-149 (identically getLandmarkGenerator lines
171-210): in the wait loop, while currentT > t the generator yields
(t, []); once t has reached currentT it yields (currentT, buf) and resets
the buffer to the pending record; when the record stream runs out, the
generator falls into the trailing loop and yields (t, []) forever - the
group still buffered at that point is dropped, never delivered. -/
def step : GenState α β → ℚ → (ℚ × List β) × GenState α β
  | .exhausted, t => ((t, []), .exhausted)
  | .waiting cT buf p rest, t =>
      if cT > t then ((t, []), .waiting cT buf p rest)
      else ((cT, buf), .loading p rest)
  | .loading p rest, t =>
      match scanGroup time out (time p) [out p] rest with
      | (_, none) => ((t, []), .exhausted)
      | (buf, some (r, rs)) =>
          if time p > t then ((t, []), .waiting (time p) buf r rs)
          else ((time p, buf), .loading r rs)

/-- The state of the generator right after priming with send(None): the
body has run up to the first t = yield (line 107); on an empty record
stream the for loop will not execute at all and the generator goes
straight to the trailing loop. -/
def init : List α → GenState α β
  | [] => .exhausted
  | r :: rs => .loading r rs

/-- Drive the generator with a sequence of queries, collecting the reply
yielded for each query. -/
def run : GenState α β → List ℚ → List (ℚ × List β)
  | _, [] => []
  | s, t :: ts => (step time out s t).1 :: run (step time out s t).2 ts

/-- In a waiting state the held-back buffer is non-empty; trivial for the
other states.  This holds along every run, for any query sequence and any
record order. -/
def BufNE : GenState α β → Prop
  | .waiting _ buf _ _ => buf ≠ []
  | _ => True

/-- Invariant tying a reachable generator state to the (sorted) record list
the generator was primed with: the records already consumed sit before the
pending position and are strictly older than the open group; in a waiting
state the held-back buffer is exactly the image of the records of its
time. -/
def Inv (all : List α) : GenState α β → Prop
  | .loading p rest => ∃ done, all = done ++ p :: rest ∧ ∀ r ∈ done, time r < time p
  | .waiting cT buf p rest => ∃ done grp,
      all = done ++ grp ++ p :: rest ∧ (∀ r ∈ done, time r < cT) ∧
      (∀ r ∈ grp, time r = cT) ∧ buf = grp.map out ∧ cT < time p ∧ grp ≠ []
  | .exhausted => True

/-- Every record still held in the state is strictly newer than x.  Used to
show that group delivery times strictly increase along a run. -/
def futureGT (x : ℚ) : GenState α β → Prop
  | .loading p rest => x < time p ∧ ∀ r ∈ rest, x < time r
  | .waiting cT _ p rest => x < cT ∧ x < time p ∧ ∀ r ∈ rest, x < time r
  | .exhausted => True

end Replay

/-- The face generator state after successful priming: the file rows are
sorted by time (line 104) and the generator suspends at the first yield.
Priming itself runs the pandas reader and can fail on a zero-record file;
that error path is modelled by primeFaceGenerator below, while this
function is the state reached when the reader succeeded. -/
def getFaceGenerator (rows : List FaceRecord) :
    Replay.GenState FaceRecord (ℤ × Rect × String) :=
  Replay.init (sortFaceRows rows)

/-- Priming of the face generator as executed by its callers: send(None)
runs the generator body through the pandas read_table call at line 102 up
to the first yield.  The pandas reader raises EmptyDataError (message: No
columns to parse from file) when the tracking file holds no data rows -
even for a whitespace-only file - so on a zero-record file construction
itself fails instead of producing a suspended generator. -/
def primeFaceGenerator (rows : List FaceRecord) :
    Except String (Replay.GenState FaceRecord (ℤ × Rect × String)) :=
  match rows with
  | [] => Except.error "No columns to parse from file"
  | r :: rs => Except.ok (getFaceGenerator (r :: rs))

/-- Querying the face generator with a sequence of frame timestamps. -/
def faceRun (double : Bool) (frame_width frame_height : ℕ)
    (rows : List FaceRecord) (qs : List ℚ) : List (ℚ × List (ℤ × Rect × String)) :=
  Replay.run (fun r => r.t) (mkFace double frame_width frame_height)
    (getFaceGenerator rows) qs

/-- The landmark generator as primed by its callers: rows are used in file
order, with no sorting step. -/
def getLandmarkGenerator (rows : List ShapeRow) :
    Replay.GenState ShapeRow (ℤ × List (ℤ × ℤ)) :=
  Replay.init (shapeParse rows)

/-- Querying the landmark generator with a sequence of frame timestamps. -/
def shapeRun (frame_width frame_height : ℕ)
    (rows : List ShapeRow) (qs : List ℚ) : List (ℚ × List (ℤ × List (ℤ × ℤ))) :=
  Replay.run (fun r => r.t) (mkShape frame_width frame_height)
    (getLandmarkGenerator rows) qs

/-- The fixed color palette defined inside get_fl (lines 310-318). -/
def COLORS : List (ℕ × ℕ × ℕ) :=
  [(240, 163, 255), (0, 117, 220), (153, 63, 0), (76, 0, 92),
   (25, 25, 25), (0, 92, 49), (43, 206, 72), (255, 204, 153),
   (128, 128, 128), (148, 255, 181), (143, 124, 0), (157, 204, 0),
   (194, 0, 136), (0, 51, 128), (255, 164, 5), (255, 168, 187),
   (66, 102, 0), (255, 0, 16), (94, 241, 242), (0, 153, 143),
   (224, 255, 102), (116, 10, 255), (153, 0, 0), (255, 255, 128),
   (255, 255, 0), (255, 80, 5)]

/-- The color selection of overlay line 344:
color = COLORS[identifier % len(COLORS)].  Python % on an int always
returns a value in [0, len), which Lean's Int.emod also does for a
positive modulus; the getD default is never reached. -/
def colorOf (identifier : ℤ) : ℕ × ℕ × ℕ :=
  (COLORS.getD (identifier % (COLORS.length : ℤ)).toNat (0, 0, 0))

/-- The cv2 drawing calls issued by overlay, abstracted as commands:
the frame timestamp text, a face bounding box, the track identifier text,
the track label text, and the nose line between landmark points 27 and 33. -/
inductive DrawCmd where
  | timeText (t : ℚ) (pos : ℤ × ℤ)
  | boxRect (pt1 pt2 : ℤ × ℤ) (color : ℕ × ℕ × ℕ)
  | idText (identifier : ℤ) (pos : ℤ × ℤ)
  | labelText (label : String) (pos : ℤ × ℤ)
  | noseLine (pt1 pt2 : ℤ × ℤ) (color : ℕ × ℕ × ℕ)
deriving DecidableEq, Repr

/-- The corner extraction of overlay lines 347-348:
pt1 = (int(face.left()), int(face.top())),
pt2 = (int(face.right()), int(face.bottom())). -/
def rectCorners : Rect → (ℤ × ℤ) × (ℤ × ℤ)
  | .drect left top right bottom => ((pyInt left, pyInt top), (pyInt right, pyInt bottom))
  | .irect left top right bottom => ((left, top), (right, bottom))

/-- One iteration of the face loop of overlay (lines 343-368), for the face
at position i of the face reply: draw the bounding box in
COLORS[identifier % 26], the identifier text, the label text (empty when
the identifier is unmapped), and, when a landmark file was supplied, the
nose line from landmarks[i] - indexed by position i, not matched on the
landmark trackId.  Any out-of-range index (landmarks[i], or rows 27 / 33
of the landmark array) raises IndexError in Python, modelled as none. -/
def renderFace (labels : ℤ → Option String) (useShape : Bool)
    (landmarks : List (ℤ × List (ℤ × ℤ))) (i : ℕ) (e : ℤ × Rect × String) :
    Option (List DrawCmd) :=
  let identifier := e.1
  let color := colorOf identifier
  let pt1 := (rectCorners e.2.1).1
  let pt2 := (rectCorners e.2.1).2
  let base := [DrawCmd.boxRect pt1 pt2 color,
               DrawCmd.idText identifier (pt1.1, pt2.2 + 15),
               DrawCmd.labelText ((labels identifier).getD "") (pt1.1, pt1.2 - 7)]
  if useShape then
    match landmarks[i]? with
    | none => none
    | some lm =>
        match lm.2[27]?, lm.2[33]? with
        | some p27, some p33 => some (base ++ [DrawCmd.noseLine p27 p33 color])
        | _, _ => none
  else
    some base

/-- The whole face loop of overlay: render the faces of the reply in order,
numbering them with the enumerate index starting at i. -/
def renderFaces (labels : ℤ → Option String) (useShape : Bool)
    (landmarks : List (ℤ × List (ℤ × ℤ))) :
    ℕ → List (ℤ × Rect × String) → Option (List DrawCmd)
  | _, [] => some []
  | i, e :: rest =>
      match renderFace labels useShape landmarks i e,
            renderFaces labels useShape landmarks (i + 1) rest with
      | some cs, some csr => some (cs ++ csr)
      | _, _ => none

/-- One frame of overlay (lines 333-370) given the replies of the two
generators: the timestamp text is drawn first (line 341), then every face
of the face reply in order. -/
def overlayFrame (height : ℤ) (labels : ℤ → Option String) (useShape : Bool)
    (landmarks : List (ℤ × List (ℤ × ℤ))) (t : ℚ)
    (faces : List (ℤ × Rect × String)) : Option (List DrawCmd) :=
  match renderFaces labels useShape landmarks 0 faces with
  | none => none
  | some cs => some (DrawCmd.timeText t (10, height - 10) :: cs)

namespace Replay

variable {α β : Type} (time : α → ℚ) (out : α → β)

/-- The accumulating buffer of scanGroup only ever grows, so it stays
non-empty. -/
theorem scanGroup_buf_ne_nil (cT : ℚ) (buf : List β) (l : List α) (h : buf ≠ []) :
    (scanGroup time out cT buf l).1 ≠ [] := by
  induction l generalizing buf with
  | nil => simpa [scanGroup] using h
  | cons r rs ih =>
      by_cases hr : time r = cT
      · simpa [scanGroup, hr] using ih (buf ++ [out r]) (by simp)
      · simpa [scanGroup, hr] using h

/-- scanGroup collects exactly the leading records whose time equals the
group time, and pends the first record of a different time. -/
theorem scanGroup_eq (cT : ℚ) (buf : List β) (l : List α) :
    scanGroup time out cT buf l =
      (buf ++ (l.takeWhile (fun r => decide (time r = cT))).map out,
        match l.dropWhile (fun r => decide (time r = cT)) with
        | [] => none
        | r :: rs => some (r, rs)) := by
  induction l generalizing buf with
  | nil => simp [scanGroup]
  | cons r rs ih =>
      by_cases hr : time r = cT
      · simp [scanGroup, hr, ih, List.takeWhile_cons, List.dropWhile_cons]
      · simp [scanGroup, hr, List.takeWhile_cons, List.dropWhile_cons]

/-- The initial state satisfies BufNE. -/
theorem bufNE_init (l : List α) : BufNE (init l : GenState α β) := by
  cases l <;> trivial

/-- step preserves BufNE, and the reply of a step from a BufNE state is
either an echo (t, []) of the query or a non-empty group stamped with a
time that is at most the query time. -/
theorem step_bufNE (s : GenState α β) (t : ℚ) (h : BufNE s) :
    BufNE (step time out s t).2 ∧
      (step time out s t).1.1 ≤ t ∧
      ((step time out s t).1.2 = [] → (step time out s t).1.1 = t) := by
  cases s with
  | exhausted => exact ⟨trivial, le_refl t, fun _ => rfl⟩
  | waiting cT buf p rest =>
      by_cases hct : cT > t
      · simp only [step, if_pos hct]
        exact ⟨h, le_refl t, by simp⟩
      · simp only [step, if_neg hct]
        exact ⟨trivial, le_of_not_lt hct, fun hbuf => absurd hbuf h⟩
  | loading p rest =>
      rcases hsc : scanGroup time out (time p) [out p] rest with ⟨buf, next⟩
      have hbuf : buf ≠ [] := by
        have := scanGroup_buf_ne_nil time out (time p) [out p] rest (by simp)
        rw [hsc] at this
        exact this
      cases next with
      | none =>
          simp only [step, hsc]
          exact ⟨trivial, le_refl t, by simp⟩
      | some pr =>
          rcases pr with ⟨r, rs⟩
          by_cases htp : time p > t
          · simp only [step, hsc, if_pos htp]
            exact ⟨hbuf, le_refl t, by simp⟩
          · simp only [step, hsc, if_neg htp]
            exact ⟨trivial, le_of_not_lt htp, fun hb => absurd hb hbuf⟩

/-- Every reply of a run started in a BufNE state is time-stamped at most
its query time, and an empty reply echoes the query time exactly. -/
theorem run_reply (s : GenState α β) (qs : List ℚ) (h : BufNE s) :
    List.Forall₂ (fun q rep => rep.1 ≤ q ∧ (rep.2 = [] → rep.1 = q))
      qs (run time out s qs) := by
  induction qs generalizing s with
  | nil => simp [run]
  | cons q ts ih =>
      have hstep := step_bufNE time out s q h
      rw [run]
      exact List.Forall₂.cons ⟨hstep.2.1, hstep.2.2⟩ (ih _ hstep.1)

/-- The head of a non-empty dropWhile result fails the predicate. -/
theorem dropWhile_head_false {p : α → Bool} (l : List α) :
    ∀ {r : α} {rs : List α}, l.dropWhile p = r :: rs → p r = false := by
  induction l with
  | nil => intro r rs h; simp [List.dropWhile] at h
  | cons a l ih =>
      intro r rs h
      rw [List.dropWhile_cons] at h
      by_cases ha : p a = true
      · rw [if_pos ha] at h
        exact ih h
      · rw [if_neg ha] at h
        cases h
        simpa using ha

/-- In a sorted list, an element is a lower bound of everything after it. -/
theorem sorted_tail_ge {l1 l2 : List α} {p : α}
    (h : (l1 ++ p :: l2).Pairwise (fun a b => time a ≤ time b)) :
    ∀ r ∈ l2, time p ≤ time r :=
  fun r hr => (List.pairwise_cons.mp (List.pairwise_append.mp h).2.1).1 r hr

/-- Filtering a decomposed sorted list for the group time keeps exactly the
group. -/
theorem filter_group {cT : ℚ} (done grp : List α) (p : α) (rest : List α)
    (hdone : ∀ r ∈ done, time r < cT) (hgrp : ∀ r ∈ grp, time r = cT)
    (hp : cT < time p) (hrest : ∀ r ∈ rest, cT < time r) :
    (done ++ grp ++ p :: rest).filter (fun r => decide (time r = cT)) = grp := by
  rw [List.filter_append, List.filter_append]
  have h1 : done.filter (fun r => decide (time r = cT)) = [] := by
    rw [List.filter_eq_nil_iff]
    intro a ha
    simp only [decide_eq_true_eq]
    exact ne_of_lt (hdone a ha)
  have h2 : grp.filter (fun r => decide (time r = cT)) = grp := by
    rw [List.filter_eq_self]
    intro a ha
    simp only [decide_eq_true_eq]
    exact hgrp a ha
  have h3 : (p :: rest).filter (fun r => decide (time r = cT)) = [] := by
    rw [List.filter_eq_nil_iff]
    intro a ha
    simp only [decide_eq_true_eq]
    rcases List.mem_cons.mp ha with h | h
    · subst h
      exact ne_of_gt hp
    · exact ne_of_gt (hrest a h)
  rw [h1, h2, h3, List.append_nil, List.nil_append]

/-- The primed generator satisfies the invariant. -/
theorem inv_init (all : List α) : Inv time out all (init all) := by
  cases all with
  | nil => trivial
  | cons r rs => exact ⟨[], rfl, by simp⟩

/-- One step from an invariant state of a sorted record list preserves the
invariant; a non-empty reply carries exactly the transformed records of the
single timestamp it is stamped with, and every record remaining in the new
state is strictly newer than the delivered time. -/
theorem step_inv (all : List α)
    (hsort : all.Pairwise (fun a b => time a ≤ time b))
    (s : GenState α β) (hs : Inv time out all s) (t : ℚ) :
    Inv time out all (step time out s t).2 ∧
    ((step time out s t).1.2 ≠ [] →
      (step time out s t).1.2 =
        (all.filter (fun r => decide (time r = (step time out s t).1.1))).map out) ∧
    ((step time out s t).1.2 ≠ [] →
      futureGT time ((step time out s t).1.1) (step time out s t).2) := by
  cases s with
  | exhausted => exact ⟨trivial, by simp [step], by simp [step]⟩
  | waiting cT buf p rest =>
      obtain ⟨done, grp, hall, hdone, hgrp, hbuf, hcp, hne⟩ := hs
      by_cases hct : cT > t
      · simp only [step, if_pos hct]
        exact ⟨⟨done, grp, hall, hdone, hgrp, hbuf, hcp, hne⟩, by simp, by simp⟩
      · simp only [step, if_neg hct]
        have hsort2 : ((done ++ grp) ++ p :: rest).Pairwise
            (fun a b => time a ≤ time b) := hall ▸ hsort
        have hrest : ∀ r ∈ rest, cT < time r := fun r hr =>
          lt_of_lt_of_le hcp (sorted_tail_ge time hsort2 r hr)
        refine ⟨?_, ?_, ?_⟩
        · refine ⟨done ++ grp, hall, ?_⟩
          intro r hr
          rcases List.mem_append.mp hr with h | h
          · exact lt_trans (hdone r h) hcp
          · exact (hgrp r h) ▸ hcp
        · intro _
          rw [hbuf, hall, filter_group time done grp p rest hdone hgrp hcp hrest]
        · intro _
          exact ⟨hcp, hrest⟩
  | loading p rest =>
      obtain ⟨done, hall, hdone⟩ := hs
      have hsortd : (done ++ p :: rest).Pairwise (fun a b => time a ≤ time b) :=
        hall ▸ hsort
      have hrest_ge : ∀ r ∈ rest, time p ≤ time r := sorted_tail_ge time hsortd
      rcases hsc : scanGroup time out (time p) [out p] rest with ⟨buf, next⟩
      have hsc2 := hsc
      rw [scanGroup_eq, Prod.mk.injEq] at hsc2
      obtain ⟨hbuf, hnext⟩ := hsc2
      cases next with
      | none =>
          refine ⟨?_, ?_, ?_⟩
          · simp only [step, hsc]
            trivial
          · simp [step, hsc]
          · simp [step, hsc]
      | some pr =>
          rcases pr with ⟨r', rs'⟩
          have hdp : rest.dropWhile (fun r => decide (time r = time p)) = r' :: rs' := by
            rcases h : rest.dropWhile (fun r => decide (time r = time p)) with _ | ⟨x, xs⟩
            · rw [h] at hnext
              cases hnext
            · rw [h] at hnext
              simpa using hnext
          have hsplit : rest =
              rest.takeWhile (fun r => decide (time r = time p)) ++ r' :: rs' := by
            conv_lhs => rw [← List.takeWhile_append_dropWhile
              (p := fun r => decide (time r = time p)) (l := rest)]
            rw [hdp]
          have htk : ∀ r ∈ rest.takeWhile (fun r => decide (time r = time p)),
              time r = time p := by
            intro r hr
            have := List.mem_takeWhile_imp hr
            simpa using this
          have hr'ne : time r' ≠ time p := by
            have := dropWhile_head_false (p := fun r => decide (time r = time p)) rest hdp
            simpa using this
          have hr'mem : r' ∈ rest := by
            rw [hsplit]
            exact List.mem_append.mpr (Or.inr (List.mem_cons_self r' rs'))
          have hpr' : time p < time r' :=
            lt_of_le_of_ne (hrest_ge r' hr'mem) (Ne.symm hr'ne)
          have hgrp2 : ∀ r ∈ p :: rest.takeWhile (fun r => decide (time r = time p)),
              time r = time p := by
            intro r hr
            rcases List.mem_cons.mp hr with h | h
            · rw [h]
            · exact htk r h
          have hall2 : all = done ++
              (p :: rest.takeWhile (fun r => decide (time r = time p))) ++ r' :: rs' := by
            rw [hall]
            conv_lhs => rw [hsplit]
            simp
          have hrs' : ∀ r ∈ rs', time p < time r := by
            have hsort3 : ((done ++ (p :: rest.takeWhile
                (fun r => decide (time r = time p)))) ++ r' :: rs').Pairwise
                (fun a b => time a ≤ time b) := hall2 ▸ hsort
            intro r hr
            exact lt_of_lt_of_le hpr' (sorted_tail_ge time hsort3 r hr)
          have hdone2 : ∀ r ∈ done, time r < time p := hdone
          by_cases htp : time p > t
          · simp only [step, hsc, if_pos htp]
            refine ⟨⟨done, p :: rest.takeWhile (fun r => decide (time r = time p)),
              hall2, hdone2, hgrp2, ?_, hpr', by simp⟩, by simp, by simp⟩
            rw [← hbuf]
            simp
          · simp only [step, hsc, if_neg htp]
            refine ⟨?_, ?_, ?_⟩
            · refine ⟨done ++ (p :: rest.takeWhile (fun r => decide (time r = time p))),
                hall2, ?_⟩
              intro r hr
              rcases List.mem_append.mp hr with h | h
              · exact lt_trans (hdone r h) hpr'
              · exact (hgrp2 r h) ▸ hpr'
            · intro _
              rw [← hbuf, hall2, filter_group time done
                (p :: rest.takeWhile (fun r => decide (time r = time p))) r' rs'
                hdone2 hgrp2 hpr' hrs']
              simp
            · intro _
              exact ⟨hpr', hrs'⟩

/-- step preserves futureGT, and a non-empty reply of a step from a
futureGT state is stamped strictly above the bound. -/
theorem step_futureGT (x : ℚ) (s : GenState α β) (t : ℚ) (h : futureGT time x s) :
    futureGT time x (step time out s t).2 ∧
      ((step time out s t).1.2 ≠ [] → x < (step time out s t).1.1) := by
  cases s with
  | exhausted => exact ⟨trivial, by simp [step]⟩
  | waiting cT buf p rest =>
      obtain ⟨h1, h2, h3⟩ := h
      by_cases hct : cT > t
      · refine ⟨?_, ?_⟩
        · simp only [step, if_pos hct]
          exact ⟨h1, h2, h3⟩
        · simp [step, if_pos hct]
      · refine ⟨?_, ?_⟩
        · simp only [step, if_neg hct]
          exact ⟨h2, h3⟩
        · simp only [step, if_neg hct]
          intro _
          exact h1
  | loading p rest =>
      obtain ⟨h1, h2⟩ := h
      rcases hsc : scanGroup time out (time p) [out p] rest with ⟨buf, next⟩
      have hsc2 := hsc
      rw [scanGroup_eq, Prod.mk.injEq] at hsc2
      obtain ⟨hbuf, hnext⟩ := hsc2
      cases next with
      | none =>
          refine ⟨?_, ?_⟩
          · simp only [step, hsc]
            trivial
          · simp [step, hsc]
      | some pr =>
          rcases pr with ⟨r', rs'⟩
          have hdp : rest.dropWhile (fun r => decide (time r = time p)) = r' :: rs' := by
            rcases hh : rest.dropWhile (fun r => decide (time r = time p)) with _ | ⟨y, ys⟩
            · rw [hh] at hnext
              cases hnext
            · rw [hh] at hnext
              simpa using hnext
          have hsub : ∀ r ∈ r' :: rs', r ∈ rest := by
            intro r hr
            have hmem : r ∈ rest.dropWhile (fun r => decide (time r = time p)) := by
              rw [hdp]
              exact hr
            exact (List.dropWhile_sublist _).subset hmem
          by_cases htp : time p > t
          · refine ⟨?_, ?_⟩
            · simp only [step, hsc, if_pos htp]
              exact ⟨h1, h2 r' (hsub r' (List.mem_cons_self r' rs')),
                fun r hr => h2 r (hsub r (List.mem_cons_of_mem r' hr))⟩
            · simp [step, hsc, if_pos htp]
          · refine ⟨?_, ?_⟩
            · simp only [step, hsc, if_neg htp]
              exact ⟨h2 r' (hsub r' (List.mem_cons_self r' rs')),
                fun r hr => h2 r (hsub r (List.mem_cons_of_mem r' hr))⟩
            · simp only [step, hsc, if_neg htp]
              intro _
              exact h1

/-- Every non-empty reply of a run started above a futureGT bound is
stamped strictly above the bound. -/
theorem run_futureGT (x : ℚ) (s : GenState α β) (qs : List ℚ)
    (h : futureGT time x s) :
    ∀ rep ∈ run time out s qs, rep.2 ≠ [] → x < rep.1 := by
  induction qs generalizing s with
  | nil => simp [run]
  | cons q ts ih =>
      intro rep hrep hne
      rw [run] at hrep
      rcases List.mem_cons.mp hrep with hh | hh
      · subst hh
        exact (step_futureGT time out x s q h).2 hne
      · exact ih _ (step_futureGT time out x s q h).1 rep hh hne

/-- Every non-empty reply of a run over a sorted record list carries
exactly the transformed records of the single timestamp it is stamped
with. -/
theorem run_groups (all : List α)
    (hsort : all.Pairwise (fun a b => time a ≤ time b))
    (s : GenState α β) (hs : Inv time out all s) (qs : List ℚ) :
    ∀ rep ∈ run time out s qs, rep.2 ≠ [] →
      rep.2 = (all.filter (fun r => decide (time r = rep.1))).map out := by
  induction qs generalizing s with
  | nil => simp [run]
  | cons q ts ih =>
      intro rep hrep hne
      rw [run] at hrep
      rcases List.mem_cons.mp hrep with hh | hh
      · subst hh
        exact (step_inv time out all hsort s hs q).2.1 hne
      · exact ih _ (step_inv time out all hsort s hs q).1 rep hh hne

/-- Along a run over a sorted record list, the times of non-empty replies
strictly increase: no group is delivered twice, and groups come out in
order. -/
theorem run_delivered_lt (all : List α)
    (hsort : all.Pairwise (fun a b => time a ≤ time b))
    (s : GenState α β) (hs : Inv time out all s) (qs : List ℚ) :
    (run time out s qs).Pairwise
      (fun r1 r2 => r1.2 ≠ [] → r2.2 ≠ [] → r1.1 < r2.1) := by
  induction qs generalizing s with
  | nil => simp [run]
  | cons q ts ih =>
      rw [run]
      refine List.Pairwise.cons ?_ (ih _ (step_inv time out all hsort s hs q).1)
      intro rep hrep h1 h2
      exact run_futureGT time out _ _ ts
        ((step_inv time out all hsort s hs q).2.2 h1) rep hrep h2

/-- Once the record stream is exhausted, every query is answered with an
empty reply echoing the query time. -/
theorem run_exhausted (qs : List ℚ) :
    run time out (GenState.exhausted : GenState α β) qs =
      qs.map (fun t => (t, [])) := by
  induction qs with
  | nil => simp [run]
  | cons q ts ih => simp [run, step, ih]

end Replay

instance : IsTotal FaceRecord (fun a b => a.t ≤ b.t) :=
  ⟨fun a b => le_total a.t b.t⟩

instance : IsTrans FaceRecord (fun a b => a.t ≤ b.t) :=
  ⟨fun _ _ _ hab hbc => le_trans hab hbc⟩

/-- The face row sort is ascending in time. -/
theorem sortFaceRows_sorted (rows : List FaceRecord) :
    (sortFaceRows rows).Pairwise (fun a b => a.t ≤ b.t) :=
  List.sorted_insertionSort _ rows

/-- The face row sort keeps exactly the input rows. -/
theorem sortFaceRows_perm (rows : List FaceRecord) :
    (sortFaceRows rows).Perm rows :=
  List.perm_insertionSort _ rows

/-- pairwise produces floor(n / 2) pairs from n elements: an unpaired
trailing element is dropped. -/
theorem pairwise_length {α : Type} : ∀ l : List α, (pairwise l).length = l.length / 2
  | [] => by simp [pairwise]
  | [_] => by simp [pairwise]
  | _ :: _ :: rest => by
      simp only [pairwise, List.length_cons]
      rw [pairwise_length rest]
      omega

/-- Inversion of renderFace without a landmark file: the commands are the
box, identifier and label draws, in source order. -/
theorem renderFace_some_false (labels : ℤ → Option String)
    (landmarks : List (ℤ × List (ℤ × ℤ))) (i : ℕ) (e : ℤ × Rect × String)
    (cmds : List DrawCmd) (h : renderFace labels false landmarks i e = some cmds) :
    cmds = [DrawCmd.boxRect (rectCorners e.2.1).1 (rectCorners e.2.1).2 (colorOf e.1),
      DrawCmd.idText e.1 ((rectCorners e.2.1).1.1, (rectCorners e.2.1).2.2 + 15),
      DrawCmd.labelText ((labels e.1).getD "")
        ((rectCorners e.2.1).1.1, (rectCorners e.2.1).1.2 - 7)] := by
  simp only [renderFace, Bool.false_eq_true, if_false, Option.some.injEq] at h
  exact h.symm

/-- Inversion of renderFace with a landmark file: the landmark set is the
one at position i of the landmark reply, its rows 27 and 33 exist, and the
commands are the box, identifier and label draws followed by the nose
line. -/
theorem renderFace_some_true (labels : ℤ → Option String)
    (landmarks : List (ℤ × List (ℤ × ℤ))) (i : ℕ) (e : ℤ × Rect × String)
    (cmds : List DrawCmd) (h : renderFace labels true landmarks i e = some cmds) :
    ∃ lm p27 p33, landmarks[i]? = some lm ∧ lm.2[27]? = some p27 ∧
      lm.2[33]? = some p33 ∧
      cmds = [DrawCmd.boxRect (rectCorners e.2.1).1 (rectCorners e.2.1).2 (colorOf e.1),
        DrawCmd.idText e.1 ((rectCorners e.2.1).1.1, (rectCorners e.2.1).2.2 + 15),
        DrawCmd.labelText ((labels e.1).getD "")
          ((rectCorners e.2.1).1.1, (rectCorners e.2.1).1.2 - 7),
        DrawCmd.noseLine p27 p33 (colorOf e.1)] := by
  simp only [renderFace, if_true] at h
  rcases hlm : landmarks[i]? with _ | lm
  · simp only [hlm] at h
    exact Option.noConfusion h
  · simp only [hlm] at h
    rcases h27 : lm.2[27]? with _ | p27
    · simp only [h27] at h
      exact Option.noConfusion h
    · simp only [h27] at h
      rcases h33 : lm.2[33]? with _ | p33
      · simp only [h33] at h
        exact Option.noConfusion h
      · simp only [h33, Option.some.injEq] at h
        exact ⟨lm, p27, p33, rfl, h27, h33, h.symm⟩

/-- When a face position overflows the landmark reply, the whole face loop
fails with an IndexError (none). -/
theorem renderFaces_none (labels : ℤ → Option String)
    (landmarks : List (ℤ × List (ℤ × ℤ))) :
    ∀ (faces : List (ℤ × Rect × String)) (i : ℕ), faces ≠ [] →
      landmarks.length < i + faces.length →
      renderFaces labels true landmarks i faces = none := by
  intro faces
  induction faces with
  | nil => intro i h; exact absurd rfl h
  | cons e rest ih =>
      intro i _ hlen
      rcases hlm : landmarks[i]? with _ | lm
      · have hrf : renderFace labels true landmarks i e = none := by
          simp [renderFace, hlm]
        rw [renderFaces, hrf]
      · have hi : i < landmarks.length := by
          by_contra hcon
          rw [List.getElem?_eq_none (le_of_not_lt hcon)] at hlm
          cases hlm
        have hrest : rest ≠ [] := by
          intro hr
          subst hr
          simp only [List.length_cons, List.length_nil] at hlen
          omega
        have hrec := ih (i + 1) hrest
          (by simp only [List.length_cons] at hlen ⊢; omega)
        rw [renderFaces, hrec]
        cases renderFace labels true landmarks i e <;> rfl

/-- With a landmark scheme of at least 34 points per row, the face loop
succeeds whenever every face position fits inside the landmark reply. -/
theorem renderFaces_total (labels : ℤ → Option String)
    (landmarks : List (ℤ × List (ℤ × ℤ)))
    (h34 : ∀ lm ∈ landmarks, 34 ≤ lm.2.length) :
    ∀ (faces : List (ℤ × Rect × String)) (i : ℕ),
      i + faces.length ≤ landmarks.length →
      ∃ cs, renderFaces labels true landmarks i faces = some cs := by
  intro faces
  induction faces with
  | nil => intro i _; exact ⟨[], rfl⟩
  | cons e rest ih =>
      intro i hlen
      have hi : i < landmarks.length := by
        simp only [List.length_cons] at hlen
        omega
      rcases hlm : landmarks[i]? with _ | lm
      · rw [List.getElem?_eq_getElem hi] at hlm
        cases hlm
      · have hmem : lm ∈ landmarks := by
          have := List.getElem?_eq_some.mp hlm
          obtain ⟨hh, hget⟩ := this
          exact hget ▸ List.getElem_mem hh
        have h27 : 27 < lm.2.length := by
          have := h34 lm hmem
          omega
        have h33 : 33 < lm.2.length := by
          have := h34 lm hmem
          omega
        have hrf : renderFace labels true landmarks i e =
            some [DrawCmd.boxRect (rectCorners e.2.1).1 (rectCorners e.2.1).2 (colorOf e.1),
              DrawCmd.idText e.1 ((rectCorners e.2.1).1.1, (rectCorners e.2.1).2.2 + 15),
              DrawCmd.labelText ((labels e.1).getD "")
                ((rectCorners e.2.1).1.1, (rectCorners e.2.1).1.2 - 7),
              DrawCmd.noseLine (lm.2.get ⟨27, h27⟩) (lm.2.get ⟨33, h33⟩) (colorOf e.1)] := by
          simp [renderFace, hlm, List.getElem?_eq_getElem h27,
            List.getElem?_eq_getElem h33]
        obtain ⟨cs, hcs⟩ := ih (i + 1)
          (by simp only [List.length_cons] at hlen; omega)
        exact ⟨_, by rw [renderFaces, hrf, hcs]⟩

/-- renderFace ignores the trackId stored in the landmark reply entries:
relabeling every landmark entry changes nothing. -/
theorem renderFace_relabel (labels : ℤ → Option String)
    (landmarks : List (ℤ × List (ℤ × ℤ))) (i : ℕ) (e : ℤ × Rect × String)
    (g : ℤ → ℤ) :
    renderFace labels true (landmarks.map (fun lm => (g lm.1, lm.2))) i e =
      renderFace labels true landmarks i e := by
  simp only [renderFace, List.getElem?_map]
  cases landmarks[i]? <;> rfl

/-- The whole face loop ignores landmark trackIds. -/
theorem renderFaces_relabel (labels : ℤ → Option String)
    (landmarks : List (ℤ × List (ℤ × ℤ))) (g : ℤ → ℤ) :
    ∀ (faces : List (ℤ × Rect × String)) (i : ℕ),
      renderFaces labels true (landmarks.map (fun lm => (g lm.1, lm.2))) i faces =
        renderFaces labels true landmarks i faces := by
  intro faces
  induction faces with
  | nil => intro i; rfl
  | cons e rest ih =>
      intro i
      rw [renderFaces, renderFaces, renderFace_relabel labels landmarks i e g, ih (i + 1)]

/-- C1: the claim states that for group times g1 < g2 and non-decreasing
queries whose last query passes g2, every group is returned in exactly one
non-empty reply.  Evaluating the code on a two-group file (times 1 and 2)
with queries 1, 2, 3 refutes this: the group at time 1 is delivered once,
but the final group at time 2 is never delivered - the generator only
flushes a buffered group when a strictly later record arrives, so the last
group of the file is dropped when the record stream ends. -/
theorem C1_last_group_never_delivered :
    faceRun true 100 100
        [⟨1, 0, 1/10, 1/10, 3/10, 3/10, "ok"⟩, ⟨2, 1, 1/2, 1/2, 7/10, 7/10, "ok"⟩]
        [1, 2, 3] =
      [(1, [(0, Rect.drect 10 10 30 30, "ok")]), (2, []), (3, [])] ∧
    ∀ rep ∈ faceRun true 100 100
        [⟨1, 0, 1/10, 1/10, 3/10, 3/10, "ok"⟩, ⟨2, 1, 1/2, 1/2, 7/10, 7/10, "ok"⟩]
        [1, 2, 3],
      ((1 : ℤ), Rect.drect 50 50 70 70, "ok") ∉ rep.2 := by
  have h : faceRun true 100 100
      [⟨1, 0, 1/10, 1/10, 3/10, 3/10, "ok"⟩, ⟨2, 1, 1/2, 1/2, 7/10, 7/10, "ok"⟩]
      [1, 2, 3] =
      [(1, [(0, Rect.drect 10 10 30 30, "ok")]), (2, []), (3, [])] := by
    norm_num [faceRun, getFaceGenerator, sortFaceRows, List.insertionSort,
      List.orderedInsert, Replay.run, Replay.step, Replay.scanGroup,
      Replay.init, mkFace, pyInt]
  refine ⟨h, ?_⟩
  rw [h]
  norm_num [List.forall_mem_cons, Rect.drect.injEq]

/-- C2: the spec's end-to-end scenario - two rows at time 1.000, frame
width = height = 100, queried at 0.9, 1.000, 1.2 - claims the pair of faces
is returned on the query at 1.000.  Evaluating the code refutes this: a
single-group file is never delivered at all (every reply is empty), because
no later record ever arrives to close the buffered group. -/
theorem C2_spec_scenario_empty :
    faceRun true 100 100
        [⟨1, 0, 1/10, 1/10, 3/10, 3/10, "ok"⟩, ⟨1, 1, 1/2, 1/2, 7/10, 7/10, "ok"⟩]
        [9/10, 1, 6/5] =
      [(9/10, []), (1, []), (6/5, [])] := by
  norm_num [faceRun, getFaceGenerator, sortFaceRows, List.insertionSort,
    List.orderedInsert, Replay.run, Replay.step, Replay.scanGroup, Replay.init,
    mkFace, pyInt]

/-- C4 counterexample: the landmark parser does not sort.  On a two-row
landmark file whose rows are at times 2 then 1, the rows are presented to
the replay loop in file order (not ascending), and the replay consequently
misbehaves: queried at 1 and 2, the generator returns nothing at query 1
(the time-1 group would have been due had the rows been sorted) and returns
the time-2 group at query 2, while the time-1 group is lost. -/
theorem C4_landmark_rows_not_sorted :
    shapeParse [⟨2, 0, [1/10, 1/10]⟩, ⟨1, 1, [1/10, 1/10]⟩] =
      [⟨2, 0, [1/10, 1/10]⟩, ⟨1, 1, [1/10, 1/10]⟩] ∧
    ¬ (shapeParse [⟨2, 0, [1/10, 1/10]⟩, ⟨1, 1, [1/10, 1/10]⟩]).Pairwise
        (fun a b => a.t ≤ b.t) ∧
    shapeRun 100 100 [⟨2, 0, [1/10, 1/10]⟩, ⟨1, 1, [1/10, 1/10]⟩] [1, 2] =
      [(1, []), (2, [(0, [(10, 10)])])] := by
  refine ⟨rfl, ?_, ?_⟩
  · norm_num [shapeParse, List.pairwise_cons]
  · norm_num [shapeRun, getLandmarkGenerator, shapeParse, Replay.run,
      Replay.step, Replay.scanGroup, Replay.init, mkShape, pairwise, npRound,
      round_eq]

/-- C4 amended: the face-box parser sorts its rows ascending by time
(returning a permutation of the file rows), but the landmark parser
performs no sorting and presents the rows in file order, so ascending
order is a precondition on the landmark file rather than something the
parser establishes. -/
theorem C4_amended_sorting (rows : List FaceRecord) (srows : List ShapeRow) :
    (sortFaceRows rows).Pairwise (fun a b => a.t ≤ b.t) ∧
    (sortFaceRows rows).Perm rows ∧
    shapeParse srows = srows :=
  ⟨sortFaceRows_sorted rows, sortFaceRows_perm rows, rfl⟩

/-- C5 counterexample: a landmark row with 5 fields (2 + 2N + 1 for N = 1,
fractional n_points = 1.5) is not rejected as a fatal error: the quantity
n_points is computed and never used, the row parses without hitting the
IndexError path, yielding one point and silently discarding the unpaired
trailing coordinate, and a run over such a file delivers the point. -/
theorem C5_odd_row_yields_points :
    n_points 5 = 3/2 ∧
    mkShapeChecked 100 100 ⟨1, 0, [1/10, 2/10, 3/10]⟩ = some (0, [(10, 20)]) ∧
    shapeRun 100 100 [⟨1, 0, [1/10, 2/10, 3/10]⟩, ⟨2, 0, [1/10, 1/10]⟩] [1, 2] =
      [(1, [(0, [(10, 20)])]), (2, [])] := by
  refine ⟨?_, ?_, ?_⟩
  · norm_num [n_points]
  · norm_num [mkShapeChecked, pairwise, npRound, round_eq]
  · norm_num [shapeRun, getLandmarkGenerator, shapeParse, Replay.run,
      Replay.step, Replay.scanGroup, Replay.init, mkShape, pairwise, npRound,
      round_eq]

/-- On a row with at least one coordinate pair the checked transformation
succeeds and agrees with the total mkShape used inside the generator
embedding. -/
theorem mkShapeChecked_eq_some (frame_width frame_height : ℕ) (r : ShapeRow)
    (h : 2 ≤ r.coords.length) :
    mkShapeChecked frame_width frame_height r =
      some (mkShape frame_width frame_height r) := by
  rcases hps : pairwise r.coords with _ | ⟨p, ps⟩
  · have hl := pairwise_length r.coords
    rw [hps] at hl
    simp only [List.length_nil] at hl
    omega
  · simp [mkShapeChecked, mkShape, hps]

/-- C5 amended: for N at least 1, a landmark row with 2 + 2N fields yields
exactly N points and a row with 2 + 2N + 1 fields is not rejected either -
it yields N points, the final unpaired field being dropped by the pairwise
zip; a row with fewer than two coordinate fields (N = 0, so 2 or 3 fields
in total) is fatal, but through the IndexError of landmarks[:, 0] on the
empty point array, not through the unused fractional n_points. -/
theorem C5_amended_point_count (frame_width frame_height : ℕ) (t : ℚ)
    (track : ℤ) (coords : List ℚ) :
    (2 ≤ coords.length →
      ∃ points, mkShapeChecked frame_width frame_height ⟨t, track, coords⟩ =
          some (track, points) ∧ points.length = coords.length / 2) ∧
    (coords.length < 2 →
      mkShapeChecked frame_width frame_height ⟨t, track, coords⟩ = none) := by
  constructor
  · intro h
    rcases hps : pairwise coords with _ | ⟨p, ps⟩
    · have hl := pairwise_length coords
      rw [hps] at hl
      simp only [List.length_nil] at hl
      omega
    · refine ⟨(p :: ps).map (fun q => (npRound (q.1 * (frame_width : ℚ)),
        npRound (q.2 * (frame_height : ℚ)))), ?_, ?_⟩
      · simp [mkShapeChecked, hps]
      · rw [List.length_map, ← hps]
        exact pairwise_length coords
  · intro h
    have hl := pairwise_length coords
    have hzero : (pairwise coords).length = 0 := by omega
    have hps : pairwise coords = [] := List.length_eq_zero.mp hzero
    simp [mkShapeChecked, hps]

/-- Witness for C5 at a concrete input: the 5-field counterexample row has
at least two coordinate fields and yields exactly one point. -/
theorem C5_amended_point_count_witness :
    2 ≤ ([1/10, 2/10, 3/10] : List ℚ).length ∧
    (∃ points, mkShapeChecked 100 100 ⟨1, 0, [1/10, 2/10, 3/10]⟩ =
        some (0, points) ∧
      points.length = ([1/10, 2/10, 3/10] : List ℚ).length / 2) :=
  ⟨by simp, (C5_amended_point_count 100 100 1 0 [1/10, 2/10, 3/10]).1 (by simp)⟩

/-- C3: for every input file and every non-decreasing query sequence, each
reply of the face Replay Generator is either empty or carries exactly the
records of one single original timestamp - the full group of the sorted
file for the time it is stamped with, a permutation of that group of the
raw file - so no reply mixes two timestamps and no timestamp is split or
repeated across non-empty replies (their times strictly increase). -/
theorem C3_group_atomicity (double : Bool) (frame_width frame_height : ℕ)
    (rows : List FaceRecord) (qs : List ℚ) (hq : qs.Chain' (· ≤ ·)) :
    (∀ rep ∈ faceRun double frame_width frame_height rows qs, rep.2 ≠ [] →
      rep.2 = ((sortFaceRows rows).filter (fun r => decide (r.t = rep.1))).map
          (mkFace double frame_width frame_height) ∧
      rep.2.Perm ((rows.filter (fun r => decide (r.t = rep.1))).map
          (mkFace double frame_width frame_height))) ∧
    (faceRun double frame_width frame_height rows qs).Pairwise
      (fun r1 r2 => r1.2 ≠ [] → r2.2 ≠ [] → r1.1 < r2.1) := by
  constructor
  · intro rep hrep hne
    have h1 := Replay.run_groups (fun r : FaceRecord => r.t)
      (mkFace double frame_width frame_height) (sortFaceRows rows)
      (sortFaceRows_sorted rows) (Replay.init (sortFaceRows rows))
      (Replay.inv_init _ _ _) qs rep hrep hne
    refine ⟨h1, ?_⟩
    rw [h1]
    exact List.Perm.map _ (List.Perm.filter _ (sortFaceRows_perm rows))
  · exact Replay.run_delivered_lt (fun r : FaceRecord => r.t)
      (mkFace double frame_width frame_height) (sortFaceRows rows)
      (sortFaceRows_sorted rows) (Replay.init (sortFaceRows rows))
      (Replay.inv_init _ _ _) qs

/-- Witness for C3 at a concrete input: a one-row file and three equal
(hence non-decreasing) query times. -/
theorem C3_group_atomicity_witness :
    (([0, 0, 0] : List ℚ).Chain' (· ≤ ·)) ∧
    ((∀ rep ∈ faceRun false 10 10 [⟨0, 0, 1/10, 1/10, 3/10, 3/10, "ok"⟩]
          [0, 0, 0],
        rep.2 ≠ [] →
        rep.2 = ((sortFaceRows [⟨0, 0, 1/10, 1/10, 3/10, 3/10, "ok"⟩]).filter
            (fun r => decide (r.t = rep.1))).map (mkFace false 10 10) ∧
        rep.2.Perm ((([⟨0, 0, 1/10, 1/10, 3/10, 3/10, "ok"⟩] :
              List FaceRecord).filter
            (fun r => decide (r.t = rep.1))).map (mkFace false 10 10))) ∧
      (faceRun false 10 10 [⟨0, 0, 1/10, 1/10, 3/10, 3/10, "ok"⟩]
          [0, 0, 0]).Pairwise
        (fun r1 r2 => r1.2 ≠ [] → r2.2 ≠ [] → r1.1 < r2.1)) :=
  ⟨by simp, C3_group_atomicity false 10 10 _ _ (by simp)⟩

/-- C10: for non-decreasing queries, every reply of either generator is
stamped with a time at most its query time; an empty (waiting or exhausted)
reply echoes the query time exactly, so a non-empty delivery carries a
group time that is at most the query time at the moment of delivery. -/
theorem C10_reply_time_le (double : Bool) (frame_width frame_height : ℕ)
    (rows : List FaceRecord) (srows : List ShapeRow) (qs : List ℚ)
    (hq : qs.Chain' (· ≤ ·)) :
    List.Forall₂ (fun q rep => rep.1 ≤ q ∧ (rep.2 = [] → rep.1 = q)) qs
      (faceRun double frame_width frame_height rows qs) ∧
    List.Forall₂ (fun q rep => rep.1 ≤ q ∧ (rep.2 = [] → rep.1 = q)) qs
      (shapeRun frame_width frame_height srows qs) := by
  constructor
  · exact Replay.run_reply (fun r : FaceRecord => r.t)
      (mkFace double frame_width frame_height)
      (Replay.init (sortFaceRows rows)) qs (Replay.bufNE_init _)
  · exact Replay.run_reply (fun r : ShapeRow => r.t)
      (mkShape frame_width frame_height)
      (Replay.init (shapeParse srows)) qs (Replay.bufNE_init _)

/-- Witness for C10 at a concrete input: one face row, one landmark row,
two equal query times. -/
theorem C10_reply_time_le_witness :
    (([0, 0] : List ℚ).Chain' (· ≤ ·)) ∧
    (List.Forall₂ (fun q rep => rep.1 ≤ q ∧ (rep.2 = [] → rep.1 = q))
        ([0, 0] : List ℚ)
        (faceRun true 10 10 [⟨0, 0, 1/10, 1/10, 3/10, 3/10, "ok"⟩] [0, 0]) ∧
      List.Forall₂ (fun q rep => rep.1 ≤ q ∧ (rep.2 = [] → rep.1 = q))
        ([0, 0] : List ℚ)
        (shapeRun 10 10 [⟨0, 0, [1/10, 1/10]⟩] [0, 0])) :=
  ⟨by simp, C10_reply_time_le true 10 10 _ _ _ (by simp)⟩

/-- C6: the claim says a zero-record annotation file constructs the Replay
Generator without raising and every query is then answered empty.  In fact
priming the generator executes the pandas reader, which raises
EmptyDataError on a zero-record file, so construction itself fails before
any query can be answered.  The replay loop itself would indeed answer
every query of a zero-record stream with an empty reply (second conjunct),
but that code is never reached. -/
theorem C6_empty_file_errors :
    primeFaceGenerator [] = Except.error "No columns to parse from file" ∧
    ∀ (double : Bool) (frame_width frame_height : ℕ) (qs : List ℚ),
      Replay.run (fun r : FaceRecord => r.t)
          (mkFace double frame_width frame_height)
          (Replay.init (sortFaceRows [])) qs = qs.map (fun t => (t, [])) := by
  constructor
  · rfl
  · intro double frame_width frame_height qs
    exact Replay.run_exhausted _ _ qs

/-- C8: the overlay assigns the face bounding box and nose line the palette
entry at index identifier mod 26 of the fixed 26-entry palette; every box
or nose color drawn for a face equals that entry, which is a function of
the identifier alone and hence identical for that identifier on every
frame. -/
theorem C8_color_palette (labels : ℤ → Option String) (useShape : Bool)
    (landmarks : List (ℤ × List (ℤ × ℤ))) (i : ℕ) (e : ℤ × Rect × String)
    (cmds : List DrawCmd)
    (h : renderFace labels useShape landmarks i e = some cmds) :
    COLORS.length = 26 ∧
    (∃ hlt : (e.1 % 26).toNat < COLORS.length,
        colorOf e.1 = COLORS.get ⟨(e.1 % 26).toNat, hlt⟩) ∧
    (∃ pt1 pt2, DrawCmd.boxRect pt1 pt2 (colorOf e.1) ∈ cmds) ∧
    (∀ p1 p2 c, DrawCmd.boxRect p1 p2 c ∈ cmds → c = colorOf e.1) ∧
    (∀ p1 p2 c, DrawCmd.noseLine p1 p2 c ∈ cmds → c = colorOf e.1) := by
  have hlen : COLORS.length = 26 := rfl
  have hlt : (e.1 % 26).toNat < COLORS.length := by
    rw [hlen]
    have h1 : 0 ≤ e.1 % 26 := Int.emod_nonneg e.1 (by norm_num)
    have h2 : e.1 % 26 < 26 := Int.emod_lt_of_pos e.1 (by norm_num)
    omega
  have hcol : colorOf e.1 = COLORS.get ⟨(e.1 % 26).toNat, hlt⟩ := by
    simp only [colorOf]
    rw [show ((COLORS.length : ℤ)) = (26 : ℤ) from rfl]
    exact List.getD_eq_get COLORS (0, 0, 0) hlt
  cases useShape with
  | false =>
      have hc := renderFace_some_false labels landmarks i e cmds h
      subst hc
      refine ⟨hlen, ⟨hlt, hcol⟩, ⟨_, _, List.mem_cons_self _ _⟩, ?_, ?_⟩
      · intro p1 p2 c hm
        simp only [List.mem_cons, List.not_mem_nil, or_false] at hm
        rcases hm with hm | hm | hm
        · exact (DrawCmd.boxRect.inj hm).2.2
        · exact absurd hm (by simp)
        · exact absurd hm (by simp)
      · intro p1 p2 c hm
        simp only [List.mem_cons, List.not_mem_nil, or_false] at hm
        rcases hm with hm | hm | hm
        · exact absurd hm (by simp)
        · exact absurd hm (by simp)
        · exact absurd hm (by simp)
  | true =>
      obtain ⟨lm, p27, p33, _, _, _, hc⟩ :=
        renderFace_some_true labels landmarks i e cmds h
      subst hc
      refine ⟨hlen, ⟨hlt, hcol⟩,
        ⟨(rectCorners e.2.1).1, (rectCorners e.2.1).2, by simp⟩, ?_, ?_⟩
      · intro p1 p2 c hm
        simp only [List.cons_append, List.nil_append, List.mem_cons,
          List.not_mem_nil, or_false] at hm
        rcases hm with hm | hm | hm | hm
        · exact (DrawCmd.boxRect.inj hm).2.2
        · exact absurd hm (by simp)
        · exact absurd hm (by simp)
        · exact absurd hm (by simp)
      · intro p1 p2 c hm
        simp only [List.cons_append, List.nil_append, List.mem_cons,
          List.not_mem_nil, or_false] at hm
        rcases hm with hm | hm | hm | hm
        · exact absurd hm (by simp)
        · exact absurd hm (by simp)
        · exact absurd hm (by simp)
        · exact (DrawCmd.noseLine.inj hm).2.2

/-- Witness for C8 at a concrete input: one face with identifier 3 rendered
without a landmark file. -/
theorem C8_color_palette_witness :
    renderFace (fun _ => none) false [] 0 ((3 : ℤ), Rect.irect 1 2 3 4, "ok") =
      some [DrawCmd.boxRect (1, 2) (3, 4) (colorOf 3),
        DrawCmd.idText 3 (1, 4 + 15), DrawCmd.labelText "" (1, 2 - 7)] ∧
    (COLORS.length = 26 ∧
      (∃ hlt : (((3 : ℤ)) % 26).toNat < COLORS.length,
          colorOf 3 = COLORS.get ⟨(((3 : ℤ)) % 26).toNat, hlt⟩) ∧
      (∃ pt1 pt2, DrawCmd.boxRect pt1 pt2 (colorOf 3) ∈
        [DrawCmd.boxRect (1, 2) (3, 4) (colorOf 3),
          DrawCmd.idText 3 (1, 4 + 15), DrawCmd.labelText "" (1, 2 - 7)]) ∧
      (∀ p1 p2 c, DrawCmd.boxRect p1 p2 c ∈
          [DrawCmd.boxRect (1, 2) (3, 4) (colorOf 3),
            DrawCmd.idText 3 (1, 4 + 15), DrawCmd.labelText "" (1, 2 - 7)] →
        c = colorOf 3) ∧
      (∀ p1 p2 c, DrawCmd.noseLine p1 p2 c ∈
          [DrawCmd.boxRect (1, 2) (3, 4) (colorOf 3),
            DrawCmd.idText 3 (1, 4 + 15), DrawCmd.labelText "" (1, 2 - 7)] →
        c = colorOf 3)) :=
  ⟨rfl, C8_color_palette (fun _ => none) false [] 0
    ((3 : ℤ), Rect.irect 1 2 3 4, "ok") _ rfl⟩

/-- C9: in demo overlay rendering with a landmark file, the nose line for
the face at position i is taken from the landmark reply entry at position
i, matched by list position with the landmark trackId ignored; rendering a
frame succeeds when the landmark reply has at least as many entries as the
face reply (given the documented 68-point scheme) and fails with an
IndexError (none) when it has fewer. -/
theorem C9_nose_by_position (height : ℤ) (labels : ℤ → Option String)
    (t : ℚ) (faces : List (ℤ × Rect × String))
    (landmarks : List (ℤ × List (ℤ × ℤ)))
    (h34 : ∀ lm ∈ landmarks, 34 ≤ lm.2.length) :
    (faces.length ≤ landmarks.length →
      ∃ cs, overlayFrame height labels true landmarks t faces = some cs) ∧
    (landmarks.length < faces.length →
      overlayFrame height labels true landmarks t faces = none) ∧
    (∀ i e cmds, renderFace labels true landmarks i e = some cmds →
      ∃ lm p27 p33, landmarks[i]? = some lm ∧ lm.2[27]? = some p27 ∧
        lm.2[33]? = some p33 ∧
        DrawCmd.noseLine p27 p33 (colorOf e.1) ∈ cmds) ∧
    (∀ g : ℤ → ℤ,
      overlayFrame height labels true
          (landmarks.map (fun lm => (g lm.1, lm.2))) t faces =
        overlayFrame height labels true landmarks t faces) := by
  refine ⟨?_, ?_, ?_, ?_⟩
  · intro hlen
    obtain ⟨cs, hcs⟩ := renderFaces_total labels landmarks h34 faces 0 (by omega)
    refine ⟨DrawCmd.timeText t (10, height - 10) :: cs, ?_⟩
    simp [overlayFrame, hcs]
  · intro hlen
    have hne : faces ≠ [] := by
      intro hf
      rw [hf] at hlen
      simp only [List.length_nil] at hlen
      omega
    have hnone := renderFaces_none labels landmarks faces 0 hne (by omega)
    simp [overlayFrame, hnone]
  · intro i e cmds h
    obtain ⟨lm, p27, p33, hlm, h27, h33, hc⟩ :=
      renderFace_some_true labels landmarks i e cmds h
    refine ⟨lm, p27, p33, hlm, h27, h33, ?_⟩
    rw [hc]
    simp
  · intro g
    rw [overlayFrame, overlayFrame, renderFaces_relabel labels landmarks g faces 0]

/-- Witness for C9 at a concrete input: one face and one landmark entry
with 34 points. -/
theorem C9_nose_by_position_witness :
    (∀ lm ∈ [((7 : ℤ), (List.range 34).map (fun n : ℕ => ((n : ℤ), (n : ℤ))))],
        34 ≤ lm.2.length) ∧
    ((([((0 : ℤ), Rect.irect 0 0 1 1, "ok")] :
          List (ℤ × Rect × String)).length ≤
        ([((7 : ℤ), (List.range 34).map (fun n : ℕ => ((n : ℤ), (n : ℤ))))] :
          List (ℤ × List (ℤ × ℤ))).length →
      ∃ cs, overlayFrame 100 (fun _ => none) true
          [((7 : ℤ), (List.range 34).map (fun n : ℕ => ((n : ℤ), (n : ℤ))))] 0
          [((0 : ℤ), Rect.irect 0 0 1 1, "ok")] = some cs) ∧
    (([((7 : ℤ), (List.range 34).map (fun n : ℕ => ((n : ℤ), (n : ℤ))))] :
          List (ℤ × List (ℤ × ℤ))).length <
        ([((0 : ℤ), Rect.irect 0 0 1 1, "ok")] :
          List (ℤ × Rect × String)).length →
      overlayFrame 100 (fun _ => none) true
          [((7 : ℤ), (List.range 34).map (fun n : ℕ => ((n : ℤ), (n : ℤ))))] 0
          [((0 : ℤ), Rect.irect 0 0 1 1, "ok")] = none) ∧
    (∀ i e cmds, renderFace (fun _ => none) true
          [((7 : ℤ), (List.range 34).map (fun n : ℕ => ((n : ℤ), (n : ℤ))))] i e =
          some cmds →
      ∃ lm p27 p33,
        ([((7 : ℤ), (List.range 34).map (fun n : ℕ => ((n : ℤ), (n : ℤ))))] :
          List (ℤ × List (ℤ × ℤ)))[i]? = some lm ∧
        lm.2[27]? = some p27 ∧ lm.2[33]? = some p33 ∧
        DrawCmd.noseLine p27 p33 (colorOf e.1) ∈ cmds) ∧
    (∀ g : ℤ → ℤ,
      overlayFrame 100 (fun _ => none) true
          (([((7 : ℤ), (List.range 34).map (fun n : ℕ => ((n : ℤ), (n : ℤ))))] :
            List (ℤ × List (ℤ × ℤ))).map (fun lm => (g lm.1, lm.2))) 0
          [((0 : ℤ), Rect.irect 0 0 1 1, "ok")] =
        overlayFrame 100 (fun _ => none) true
          [((7 : ℤ), (List.range 34).map (fun n : ℕ => ((n : ℤ), (n : ℤ))))] 0
          [((0 : ℤ), Rect.irect 0 0 1 1, "ok")])) :=
  ⟨by
    intro lm hlm
    rw [List.mem_singleton] at hlm
    subst hlm
    show 34 ≤ ((List.range 34).map (fun n : ℕ => ((n : ℤ), (n : ℤ)))).length
    rw [List.length_map, List.length_range],
   C9_nose_by_position 100 (fun _ => none) 0 _ _ (by
    intro lm hlm
    rw [List.mem_singleton] at hlm
    subst hlm
    show 34 ≤ ((List.range 34).map (fun n : ℕ => ((n : ℤ), (n : ℤ)))).length
    rw [List.length_map, List.length_range])⟩

/-- C7 counterexample: with the sub-pixel flag set, left = 0.105 and frame
width 100, the spec's sub-pixel rectangle has left 10.5, but the code
truncates with int() before constructing the drectangle, producing left 10:
the produced value differs from the claimed sub-pixel product. -/
theorem C7_drectangle_not_subpixel :
    mkFace true 100 100 ⟨1, 0, 21/200, 1/10, 3/10, 3/10, "ok"⟩ ≠
      ((0 : ℤ), specSubpixelRect 100 100 ⟨1, 0, 21/200, 1/10, 3/10, 3/10, "ok"⟩,
        "ok") := by
  norm_num [mkFace, specSubpixelRect, pyInt, Rect.drect.injEq]

/-- C7 amended: the construction-time flag selects only the rectangle
representation - a float-valued drectangle when set, an integer rectangle
when unset - and both variants carry the same integer-truncated coordinates
int(coordinate x dimension); the fractional sub-pixel part is discarded in
both variants. -/
theorem C7_amended_flag_selects_representation (frame_width frame_height : ℕ)
    (r : FaceRecord) :
    ∃ L T R B : ℤ,
      mkFace true frame_width frame_height r =
        (r.track, Rect.drect (L : ℚ) (T : ℚ) (R : ℚ) (B : ℚ), r.status) ∧
      mkFace false frame_width frame_height r =
        (r.track, Rect.irect L T R B, r.status) :=
  ⟨pyInt (r.left * (frame_width : ℚ)), pyInt (r.top * (frame_height : ℚ)),
   pyInt (r.right * (frame_width : ℚ)), pyInt (r.bottom * (frame_height : ℚ)),
   rfl, rfl⟩

end PyannoteFace
